import Mathlib

/-!
Shallow embedding of the artwork resolution and compositing pipeline of
`steamgrid.go`.

Modelling conventions:
* Raw bytes (`[]byte`) are `List Nat`.
* The network (`http.Get`) is an oracle `net : String → Option HttpResponse`;
  `none` models a DNS/connect error, `some r` a response with status code and
  body. The response-header timeout and body streaming are not modelled.
* Go's `(value, error)` returns are modelled as pairs with `Option GoError`.
* The filesystem is an association list from paths to bytes; `os.Stat`
  succeeding is modelled as the path being present. Read/write I/O errors are
  not modelled (no claim concerns StorageError paths).
* `image.Image` is an abstract type `Img`; decoding, JPEG encoding and the
  draw-over compositing of `ApplyOverlay` are abstract operations `ImgOps`.
* Go library calls `url.QueryEscape` and the regexp match inside
  `getGoogleImage` are oracle fields of `Env`.
-/

/-- Raw image bytes (`[]byte` in Go). -/
abbrev Bytes := List Nat

/-- A successful `http.Get` result: status code and body bytes. -/
structure HttpResponse where
  statusCode : Nat
  body : Bytes
  deriving DecidableEq, Repr

/-- The errors produced along the modelled paths of `steamgrid.go`. -/
inductive GoError where
  /-- Case where `http.Get` returned a non-nil error (DNS/connect failure). -/
  | connectError (url : String)
  /-- Error from `tryDownload`: "Failed to download image <url>: <status>". -/
  | downloadError (url : String) (status : Nat)
  /-- Case where `image.Decode` failed on the bytes at hand. -/
  | decodeError
  deriving DecidableEq, Repr

/-- External oracles: the network, `url.QueryEscape`, and the regexp that
extracts the first 460x215 image URL from the Google search response body. -/
structure Env where
  net : String → Option HttpResponse
  queryEscape : String → String
  findGoogleImageUrl : Bytes → Option String

/-- A Steam game in a library (struct `Game` in the source). `ImageBytes` is
`none` while the image is not yet resolved (Go `nil` slice). -/
structure Game where
  id : String
  name : String
  tags : List String
  imagePath : String
  imageBytes : Option Bytes
  deriving DecidableEq, Repr

/-- User in the local steam installation (struct `User`). Only `dir` matters
for the artwork pipeline. -/
structure User where
  name : String
  steamId32 : String
  steamId64 : String
  dir : String
  deriving DecidableEq, Repr

/-- The `googleSearchFormat` constant from the source. -/
def googleSearchFormat : String :=
  "https://ajax.googleapis.com/ajax/services/search/images?v=1.0&rsz=8&q="

/-- The `akamaiUrlFormat` constant instantiated at a game id. -/
def akamaiUrl (gameId : String) : String :=
  "https://steamcdn-a.akamaihd.net/steam/apps/" ++ gameId ++ "/header.jpg"

/-- The `steamCdnUrlFormat` constant instantiated at a game id. -/
def steamCdnUrl (gameId : String) : String :=
  "http://cdn.steampowered.com/v/gfx/apps/" ++ gameId ++ "/header.jpg"

/-- Model of `tryDownload`: fetch a URL; `(none, none)` on HTTP 404 ("nothing we can
do"), an error on a status strictly greater than 400, and the response
otherwise. Mirrors the source's `== 404` / `> 400` tests. -/
def tryDownload (net : String → Option HttpResponse) (url : String) :
    Option HttpResponse × Option GoError :=
  match net url with
  | none => (none, some (GoError.connectError url))
  | some response =>
    if response.statusCode = 404 then (none, none)
    else if 400 < response.statusCode then
      (none, some (GoError.downloadError url response.statusCode))
    else (some response, none)

/-- The search URL built by `getGoogleImage` (the source concatenates
`"steam grid OR header"` and the name with no separating space). -/
def googleQueryUrl (env : Env) (gameName : String) : String :=
  googleSearchFormat ++ env.queryEscape ("steam grid OR header" ++ gameName)

/-- Model of `getGoogleImage`: empty name short-circuits to `("", nil)`; otherwise fetch
the search URL, and extract the first matching image URL from the body (no
match also yields `("", nil)`). -/
def getGoogleImage (env : Env) (gameName : String) : String × Option GoError :=
  if gameName = "" then ("", none)
  else
    match env.net (googleQueryUrl env gameName) with
    | none => ("", some (GoError.connectError (googleQueryUrl env gameName)))
    | some response =>
      match env.findGoogleImageUrl response.body with
      | some u => (u, none)
      | none => ("", none)

/-- The URLs `getGoogleImage` fetches (empty name fetches nothing). -/
def getGoogleImageFetches (env : Env) (gameName : String) : List String :=
  if gameName = "" then [] else [googleQueryUrl env gameName]

/-- Result triple of `getImageAlternatives` (named returns
`(response, fromSearch, err)` in the source). -/
structure AltResult where
  response : Option HttpResponse
  fromSearch : Bool
  err : Option GoError
  deriving DecidableEq, Repr

/-- Model of `getImageAlternatives`: try the Akamai CDN, then the Steam CDN, then a
Google search, returning after the first attempt with no error and a non-nil
response. Each `guard` mirrors the source's `if err == nil && response != nil`.
When the Google-search branch is entered, the running `response` is necessarily
`nil` (a skipped `tryDownload` always pairs a `nil` response with its error),
so the early error return there carries `response = none`. The final
fall-through discards any pending error: `return nil, false, nil`. -/
def getImageAlternatives (env : Env) (game : Game) : AltResult :=
  let (response, err) := tryDownload env.net (akamaiUrl game.id)
  if err = none ∧ response.isSome then ⟨response, false, err⟩
  else
    let (response, err) := tryDownload env.net (steamCdnUrl game.id)
    if err = none ∧ response.isSome then ⟨response, false, err⟩
    else
      let (url, err) := getGoogleImage env game.name
      if err ≠ none then ⟨none, true, err⟩
      else
        let (response, err) := tryDownload env.net url
        if err = none ∧ response.isSome then ⟨response, true, err⟩
        else ⟨none, false, none⟩

/-- The URLs fetched by `getImageAlternatives`, in order (instrumentation of
the same control flow; every network access of the resolver appears here). -/
def getImageAlternativesFetches (env : Env) (game : Game) : List String :=
  let u1 := akamaiUrl game.id
  let (response, err) := tryDownload env.net u1
  if err = none ∧ response.isSome then [u1]
  else
    let u2 := steamCdnUrl game.id
    let (response, err) := tryDownload env.net u2
    if err = none ∧ response.isSome then [u1, u2]
    else
      let (url, err) := getGoogleImage env game.name
      let searchFetches := getGoogleImageFetches env game.name
      if err ≠ none then [u1, u2] ++ searchFetches
      else [u1, u2] ++ searchFetches ++ [url]

/-- Filesystem: association list from path to file bytes, first match wins,
writes prepend (so a write shadows earlier content of the same path). -/
abbrev FS := List (String × Bytes)

/-- Model of `ioutil.ReadFile` / `os.Stat`: the first entry for the path, if any. -/
def FS.read (fs : FS) (p : String) : Option Bytes :=
  (fs.find? (fun e => e.1 == p)).map (fun e => e.2)

/-- Model of `ioutil.WriteFile` (always succeeds; I/O errors are not modelled). -/
def FS.write (fs : FS) (p : String) (b : Bytes) : FS :=
  (p, b) :: fs

/-- The grid directory `filepath.Join(user.Dir, "config", "grid")`. -/
def gridDirPath (user : User) : String :=
  user.dir ++ "/config/grid"

/-- The working artwork path `{grid-dir}/{gameId}.jpg`. -/
def workingPath (user : User) (game : Game) : String :=
  gridDirPath user ++ "/" ++ game.id ++ ".jpg"

/-- The backup path `{grid-dir}/{gameId} (original).jpg`. -/
def backupPath (user : User) (game : Game) : String :=
  gridDirPath user ++ "/" ++ game.id ++ " (original).jpg"

/-- Observable steps of a per-game run, for stating ordering properties. -/
inductive Ev where
  /-- An `os.Stat` cache check of a path. -/
  | statFile (path : String)
  /-- A network fetch of a URL. -/
  | fetch (url : String)
  /-- An `ioutil.ReadFile` of a path. -/
  | readFile (path : String)
  /-- An `ioutil.WriteFile` of a path. -/
  | writeFile (path : String)
  /-- One overlay composited for a matching tag. -/
  | overlayDraw (tag : String)
  deriving DecidableEq, Repr

/-- Model of `DownloadImage`, instrumented with its event trace. Branches, in source
order: backup exists → load it; working file exists → load it and write the
backup; otherwise `getImageAlternatives`, and on success write the working file
first, then the backup. The triple is `(found, fromSearch, err)`. -/
def DownloadImageT (env : Env) (game : Game) (user : User) (fs : FS) :
    ((Bool × Bool × Option GoError) × Game × FS) × List Ev :=
  let filename := workingPath user game
  let backupFilename := backupPath user game
  let game := { game with imagePath := filename }
  match fs.read backupFilename with
  | some imageBytes =>
    (((true, false, none), { game with imageBytes := some imageBytes }, fs),
      [Ev.statFile backupFilename, Ev.readFile backupFilename])
  | none =>
    match fs.read filename with
    | some imageBytes =>
      -- There's an image, but not a backup. Load the image and back it up.
      (((true, false, none), { game with imageBytes := some imageBytes },
          fs.write backupFilename imageBytes),
        [Ev.statFile backupFilename, Ev.statFile filename,
          Ev.readFile filename, Ev.writeFile backupFilename])
    | none =>
      let r := getImageAlternatives env game
      let evs := [Ev.statFile backupFilename, Ev.statFile filename] ++
        (getImageAlternativesFetches env game).map Ev.fetch
      match r.response, r.err with
      | none, e => (((false, false, e), game, fs), evs)
      | some _, some e => (((false, false, some e), game, fs), evs)
      | some resp, none =>
        let game := { game with imageBytes := some resp.body }
        let fs := fs.write filename resp.body
        let fs := fs.write backupFilename resp.body
        (((true, r.fromSearch, none), game, fs),
          evs ++ [Ev.writeFile filename, Ev.writeFile backupFilename])

/-- The function `DownloadImage` proper: the traced run without its event list. -/
def DownloadImage (env : Env) (game : Game) (user : User) (fs : FS) :
    (Bool × Bool × Option GoError) × Game × FS :=
  (DownloadImageT env game user fs).1

/-- Model of `strings.TrimRight(s, "s")`: remove ALL trailing 's' characters. -/
def trimRightS (s : String) : String :=
  String.mk ((s.data.reverse.dropWhile (fun c => c == 's')).reverse)

/-- Model of `strings.ToLower` (character-wise; the ASCII range is what the
tags and overlay names of interest use, Unicode case mapping is not
modelled). -/
def strToLower (s : String) : String :=
  String.mk (s.data.map Char.toLower)

/-- Tag/overlay-name normalization as performed by `LoadOverlays` and
`ApplyOverlay`: `strings.TrimRight(strings.ToLower(name), "s")`. -/
def normalizeName (s : String) : String :=
  trimRightS (strToLower s)

/-- Helper for `filepath.Ext` on a plain file name, over reversed characters: everything
from the last dot on (empty when there is no dot). `orig` is returned reversed
when no dot is found. -/
def dropExtRev (orig : List Char) : List Char → List Char
  | [] => orig
  | c :: rest => if c = '.' then rest else dropExtRev orig rest

/-- Model of `strings.TrimSuffix(name, filepath.Ext(name))`: the file name stem. -/
def stripExt (s : String) : String :=
  String.mk ((dropExtRev s.data.reverse s.data.reverse).reverse)

/-- The normalized overlay name `LoadOverlays` derives from a file name. -/
def overlayName (fileName : String) : String :=
  normalizeName (stripExt fileName)

/-- Abstract image operations: decoding (`image.Decode`, fallible), JPEG
encoding at quality 90 (`jpeg.Encode` to a buffer, modelled total), and the
compositing `ApplyOverlay` performs (union canvas, game image drawn `Src`,
overlay drawn `Over` on top). -/
structure ImgOps (Img : Type) where
  decode : Bytes → Option Img
  encode : Img → Bytes
  compose : Img → Img → Img

/-- Go map lookup on our insertion-ordered association list. -/
def mapLookup {α : Type} (m : List (String × α)) (k : String) : Option α :=
  (m.find? (fun e => e.1 == k)).map (fun e => e.2)

/-- Go map insert: prepend, so the latest insert wins on lookup. -/
def mapInsert {α : Type} (m : List (String × α)) (k : String) (v : α) :
    List (String × α) :=
  (k, v) :: m

/-- The loop body of `LoadOverlays` over a directory listing of
`(fileName, fileBytes)` entries: decode each file (a failure aborts with the
overlays read so far, mirroring `return overlays, err`), keying the map by the
normalized stem. -/
def loadOverlayFiles {Img : Type} (ops : ImgOps Img) :
    List (String × Bytes) → List (String × Img) →
    List (String × Img) × Option GoError
  | [], overlays => (overlays, none)
  | (fileName, fileBytes) :: rest, overlays =>
    match ops.decode fileBytes with
    | none => (overlays, some GoError.decodeError)
    | some img =>
      loadOverlayFiles ops rest (mapInsert overlays (overlayName fileName) img)

/-- Model of `LoadOverlays`: a missing directory (`dir = none`) yields the empty map
with no error; otherwise every image file of the listing is loaded. -/
def LoadOverlays {Img : Type} (ops : ImgOps Img)
    (dir : Option (List (String × Bytes))) :
    List (String × Img) × Option GoError :=
  match dir with
  | none => ([], none)
  | some files => loadOverlayFiles ops files []

/-- The tag loop of `ApplyOverlay`, threading the current encoded image bytes
(`game.ImageBytes`). A tag whose normalized name misses the overlay map is
skipped; a matching tag decodes the current bytes (a failure returns the error
together with the bytes accumulated so far, as the Go code leaves the mutated
`game.ImageBytes` behind), composites the overlay over the image and re-encodes.
Also returns the overlay events drawn, in order. -/
def applyTags {Img : Type} (ops : ImgOps Img) (overlays : List (String × Img)) :
    List String → Bytes → (Option GoError × Bytes) × List Ev
  | [], acc => ((none, acc), [])
  | tag :: rest, acc =>
    let tagName := normalizeName tag
    match mapLookup overlays tagName with
    | none => applyTags ops overlays rest acc
    | some overlayImage =>
      match ops.decode acc with
      | none => ((some GoError.decodeError, acc), [])
      | some gameImage =>
        let next :=
          applyTags ops overlays rest (ops.encode (ops.compose gameImage overlayImage))
        (next.1, Ev.overlayDraw tag :: next.2)

/-- Model of `ApplyOverlay`, instrumented with its event trace: a no-op when the game
has no image path or no image bytes; otherwise run the tag loop and, when no
error occurred, write the resulting bytes over `game.ImagePath` (the write
happens even when no tag matched). On an error the partial bytes stay in the
game record and nothing is written. -/
def ApplyOverlayT {Img : Type} (ops : ImgOps Img)
    (game : Game) (overlays : List (String × Img)) (fs : FS) :
    (Option GoError × Game × FS) × List Ev :=
  match game.imageBytes with
  | none => ((none, game, fs), [])
  | some bytes =>
    if game.imagePath = "" then ((none, game, fs), [])
    else
      let ((e, newBytes), evs) := applyTags ops overlays game.tags bytes
      let game := { game with imageBytes := some newBytes }
      match e with
      | some e => ((some e, game, fs), evs)
      | none =>
        ((none, game, fs.write game.imagePath newBytes),
          evs ++ [Ev.writeFile game.imagePath])

/-- The function `ApplyOverlay` proper: the traced run without its event list. -/
def ApplyOverlay {Img : Type} (ops : ImgOps Img)
    (game : Game) (overlays : List (String × Img)) (fs : FS) :
    Option GoError × Game × FS :=
  (ApplyOverlayT ops game overlays fs).1

/-- Outcome the driver records for one game. -/
inductive Outcome where
  /-- A non-nil error: `errorAndExit`, the whole run aborts. -/
  | aborted (e : GoError)
  /-- Case `found = false`: recorded in the not-found list, no overlay step. -/
  | notFound
  /-- Found (with the `fromSearch` flag); overlays were applied. -/
  | ok (fromSearch : Bool)
  deriving DecidableEq, Repr

/-- The per-game body of `startApplication`'s loop, instrumented:
`DownloadImage`, abort on error, skip overlays when not found, else
`ApplyOverlay` and abort on its error. -/
def processGameT {Img : Type} (ops : ImgOps Img) (overlays : List (String × Img))
    (env : Env) (user : User) (fs : FS) (game : Game) :
    (Outcome × Game × FS) × List Ev :=
  let (((found, fromSearch, err), game, fs), evs) := DownloadImageT env game user fs
  match err with
  | some e => ((Outcome.aborted e, game, fs), evs)
  | none =>
    if found then
      let ((oerr, game, fs), oevs) := ApplyOverlayT ops game overlays fs
      match oerr with
      | some e => ((Outcome.aborted e, game, fs), evs ++ oevs)
      | none => ((Outcome.ok fromSearch, game, fs), evs ++ oevs)
    else ((Outcome.notFound, game, fs), evs)

/-- The function `processGameT` without its event list. -/
def processGame {Img : Type} (ops : ImgOps Img) (overlays : List (String × Img))
    (env : Env) (user : User) (fs : FS) (game : Game) :
    Outcome × Game × FS :=
  (processGameT ops overlays env user fs game).1

/-- The display name used in the progress description (lines 502-509): the
game's name, or a synthesized fallback when the name is empty. -/
def displayName (game : Game) : String :=
  if game.name ≠ "" then game.name else "unknown game with id " ++ game.id

/-- The per-game progress status string `"Processing %v (%v/%v)"`. -/
def progressDescription (game : Game) (i total : Nat) : String :=
  "Processing " ++ displayName game ++ " (" ++ toString i ++ "/" ++ toString total ++ ")"

/-- One itemized line of the final report: `"* %v (steam id %v)\n"` with the
raw `game.Name` and `game.Id`. -/
def reportLine (game : Game) : String :=
  "* " ++ game.name ++ " (steam id " ++ game.id ++ ")\n"

/-- The report-building loop `for _, game := range list { message += ... }`. -/
def appendLines (init : String) (gamesList : List Game) : String :=
  gamesList.foldl (fun m g => m ++ reportLine g) init

/-- The final report of `startApplication` (lines 533-555), from the
accumulated `searchFounds` and `notFounds` lists. -/
def buildMessage (searchFounds notFounds : List Game) : String :=
  let message := ""
  let message :=
    if notFounds.length = 0 ∧ searchFounds.length = 0 then
      message ++ "All grid images downloaded and overlays applied!\n\n"
    else
      let message :=
        if 1 ≤ searchFounds.length then
          appendLines
            (message ++ toString searchFounds.length ++
              " images were found with a Google search and may not be accurate:\n")
            searchFounds ++ "\n\n"
        else message
      if 1 ≤ notFounds.length then
        appendLines
          (message ++ toString notFounds.length ++
            " images could not be found anywhere:\n")
          notFounds ++ "\n\n"
      else message
  message ++ "Open Steam in grid view to see the results!"

/-- Spec's wording of the normalization, for comparison with `normalizeName`:
lower-case, then strip exactly ONE trailing "s". -/
def normalizeOneSpec (s : String) : String :=
  let l := strToLower s
  if l.data.getLast? = some 's' then String.mk l.data.dropLast else l

/-- The paths written in an event trace, in order. -/
def writeEvents (evs : List Ev) : List String :=
  evs.filterMap (fun e => match e with | Ev.writeFile p => some p | _ => none)

/-- Concrete image operations over `Nat` used to instantiate theorems: decode
reads the head byte, encode is a singleton, composition pairs by `10 * x + y`.
Decoding an encoded image round-trips. -/
def natOps : ImgOps Nat :=
  { decode := fun b => b.head?, encode := fun i => [i],
    compose := fun x y => 10 * x + y }

/-- A concrete game record for instantiating theorems. -/
def gameTF2 : Game :=
  { id := "440", name := "Team Fortress 2", tags := ["Action"],
    imagePath := "", imageBytes := none }

/-- A concrete game record with an empty display name. -/
def gameNoName : Game :=
  { id := "440", name := "", tags := [], imagePath := "", imageBytes := none }

/-- A concrete user record for instantiating theorems. -/
def userU : User := { name := "u", steamId32 := "1", steamId64 := "2", dir := "U" }

/-- A network where the Akamai CDN answers 500 and the Steam CDN 200. -/
def envHardThenOk : Env :=
  { net := fun u =>
      if u = akamaiUrl "440" then some { statusCode := 500, body := [7] }
      else if u = steamCdnUrl "440" then some { statusCode := 200, body := [1, 2, 3] }
      else none,
    queryEscape := fun s => s, findGoogleImageUrl := fun _ => none }

/-- A network where the Akamai CDN answers 404 and the Steam CDN 200. -/
def envFallbackOk : Env :=
  { net := fun u =>
      if u = akamaiUrl "440" then some { statusCode := 404, body := [] }
      else if u = steamCdnUrl "440" then some { statusCode := 200, body := [5] }
      else none,
    queryEscape := fun s => s, findGoogleImageUrl := fun _ => none }

/-- A network where both CDNs answer 404, the Google search page answers 200
and names a candidate image URL whose download then hits a connect error. -/
def envSearchFail : Env :=
  { net := fun u =>
      if u = akamaiUrl "440" ∨ u = steamCdnUrl "440" then
        some { statusCode := 404, body := [] }
      else if u = "http://img.example/a.jpg" then none
      else some { statusCode := 200, body := [0] },
    queryEscape := fun s => s,
    findGoogleImageUrl := fun _ => some "http://img.example/a.jpg" }

/-- A network that is never reached (every fetch is a connect error). -/
def envNone : Env :=
  { net := fun _ => none, queryEscape := fun s => s,
    findGoogleImageUrl := fun _ => none }

/-- A filesystem already holding a backup for `gameTF2` under `userU`. -/
def fsWithBackup : FS := [(backupPath userU gameTF2, [1])]

/-- A filesystem holding only a working file for `gameTF2` under `userU`. -/
def fsWithWorking : FS := [(workingPath userU gameTF2, [2])]

/-- Reading after a write: the written path returns the new bytes, any other
path is unaffected. -/
theorem FS.read_write (fs : FS) (p q : String) (b : Bytes) :
    (fs.write p b).read q = if q = p then some b else fs.read q := by
  by_cases h : q = p
  · subst h; simp [FS.read, FS.write, List.find?]
  · have hb : (p == q) = false := beq_eq_false_iff_ne.mpr (fun hh => h hh.symm)
    simp [FS.read, FS.write, List.find?, hb, h]

/-- The backup path and the working path of a game are distinct. -/
theorem backupPath_ne_workingPath (user : User) (game : Game) :
    backupPath user game ≠ workingPath user game := by
  intro h
  have hl := congrArg String.length h
  rw [backupPath, workingPath, gridDirPath] at hl
  simp only [String.length_append] at hl
  have h1 : (" (original).jpg" : String).length = 15 := rfl
  have h2 : (".jpg" : String).length = 4 := rfl
  omega

/-- The working path is never the empty string. -/
theorem workingPath_ne_empty (user : User) (game : Game) :
    workingPath user game ≠ "" := by
  intro h
  have hl := congrArg String.length h
  rw [workingPath, gridDirPath] at hl
  simp only [String.length_append] at hl
  have h2 : (".jpg" : String).length = 4 := rfl
  have h0 : ("" : String).length = 0 := rfl
  omega

/-- The resolver reads only `game.Id` and `game.Name`; setting the image path
does not change its result. -/
theorem getImageAlternatives_set_imagePath (env : Env) (game : Game) (p : String) :
    getImageAlternatives env { game with imagePath := p } =
      getImageAlternatives env game := rfl

/-- Setting the image path does not change the fetched URLs either. -/
theorem getImageAlternativesFetches_set_imagePath (env : Env) (game : Game) (p : String) :
    getImageAlternativesFetches env { game with imagePath := p } =
      getImageAlternativesFetches env game := rfl

/-- Every event the tag loop itself records is an overlay draw. -/
theorem applyTags_events_draw {Img : Type} (ops : ImgOps Img)
    (overlays : List (String × Img)) (tags : List String) (acc : Bytes) :
    ∀ e ∈ (applyTags ops overlays tags acc).2, ∃ t, e = Ev.overlayDraw t := by
  induction tags generalizing acc with
  | nil => simp [applyTags]
  | cons tag rest ih =>
    simp only [applyTags]
    cases mapLookup overlays (normalizeName tag) with
    | none => exact ih acc
    | some ov =>
      cases ops.decode acc with
      | none => simp
      | some img =>
        intro e he
        rcases List.mem_cons.mp he with rfl | he
        · exact ⟨tag, rfl⟩
        · exact ih _ e he

/-- The report loop appends one line per game to the right of `init`. -/
theorem appendLines_data (init : String) (l : List Game) :
    (appendLines init l).data =
      init.data ++ (l.map (fun g => (reportLine g).data)).flatten := by
  induction l generalizing init with
  | nil => simp [appendLines]
  | cons a as ih =>
    show (appendLines (init ++ reportLine a) as).data = _
    rw [ih]
    simp [String.data_append, List.append_assoc]

/-- A listed game's report line occurs verbatim inside the loop's output. -/
theorem reportLine_infix_appendLines (g : Game) (l : List Game) (init : String)
    (hg : g ∈ l) :
    (reportLine g).data <:+: (appendLines init l).data := by
  rw [appendLines_data]
  have h1 : (reportLine g).data <:+: (l.map (fun g => (reportLine g).data)).flatten :=
    List.infix_of_mem_flatten (List.mem_map_of_mem _ hg)
  exact h1.trans (List.suffix_append _ _).isInfix

/-- Claim C2, counterexample: a response with HTTP status exactly 400 is not a
hard error — `tryDownload` returns it as a success (non-nil response, nil
error), because the source tests `StatusCode > 400` strictly. -/
theorem C2_counterexample :
    tryDownload (fun _ => some { statusCode := 400, body := [9] }) "http://u" =
      (some { statusCode := 400, body := [9] }, none) := by
  rfl

/-- Claim C2 amended: for a single fetch attempt, `tryDownload` yields the
try-next marker (nil response, nil error) exactly on HTTP 404; it yields a
non-nil error on a DNS/connect failure and on any HTTP status strictly greater
than 400 other than 404; every other response — including status exactly
400 — is returned as a success. -/
theorem C2_amended (net : String → Option HttpResponse) (url : String)
    (r : HttpResponse) (hr : net url = some r) :
    ((tryDownload net url).2 ≠ none ↔ 400 < r.statusCode ∧ r.statusCode ≠ 404) ∧
    (tryDownload net url = (none, none) ↔ r.statusCode = 404) ∧
    (tryDownload net url = (some r, none) ↔ r.statusCode ≤ 400) ∧
    (∀ u', net u' = none →
      tryDownload net u' = (none, some (GoError.connectError u'))) := by
  refine ⟨?_, ?_, ?_, fun u' hu' => by simp [tryDownload, hu']⟩ <;>
    simp only [tryDownload, hr] <;> split_ifs with h1 h2 <;> simp_all

/-- Claim C2 amended, witness at a concrete 404 response. -/
theorem C2_amended_witness :
    (fun _ => some { statusCode := 404, body := ([] : Bytes) } :
        String → Option HttpResponse) "u" =
      some { statusCode := 404, body := [] } ∧
    (tryDownload (fun _ => some { statusCode := 404, body := ([] : Bytes) }) "u" =
        (none, none) ↔ (404 : Nat) = 404) :=
  ⟨rfl, (C2_amended (fun _ => some { statusCode := 404, body := [] }) "u"
      { statusCode := 404, body := [] } rfl).2.1⟩

/-- Claim C1, counterexample: with the Akamai CDN (source 1) answering HTTP
500, resolution does not abort — the Steam CDN's (source 2) 200 response is
returned as a success with no error, because `getImageAlternatives` falls
through to the next source whenever `err == nil && response != nil` fails. -/
theorem C1_counterexample :
    getImageAlternatives envHardThenOk gameTF2 =
      { response := some { statusCode := 200, body := [1, 2, 3] },
        fromSearch := false, err := none } := by
  rfl

/-- Claim C1 amended: a hard error (status > 400, not 404) from source 1 does
not abort resolution; the resolver proceeds to source 2, and a 2xx answer
there yields source 2's response with no error and `fromSearch = false`. -/
theorem C1_amended (env : Env) (game : Game) (r1 r2 : HttpResponse)
    (h1 : env.net (akamaiUrl game.id) = some r1)
    (h1hi : 400 < r1.statusCode) (h1ne : r1.statusCode ≠ 404)
    (h2 : env.net (steamCdnUrl game.id) = some r2)
    (h2lo : 200 ≤ r2.statusCode) (h2hi : r2.statusCode < 300) :
    getImageAlternatives env game =
      { response := some r2, fromSearch := false, err := none } := by
  have h2ne : ¬ r2.statusCode = 404 := by omega
  have h2le : ¬ 400 < r2.statusCode := by omega
  simp [getImageAlternatives, tryDownload, h1, h2, h1ne, h1hi, h2ne, h2le]

/-- Claim C1 amended, witness: Akamai answers 500, the Steam CDN 200. -/
theorem C1_amended_witness :
    envHardThenOk.net (akamaiUrl "440") = some { statusCode := 500, body := [7] } ∧
    envHardThenOk.net (steamCdnUrl "440") =
      some { statusCode := 200, body := [1, 2, 3] } ∧
    getImageAlternatives envHardThenOk gameTF2 =
      { response := some { statusCode := 200, body := [1, 2, 3] },
        fromSearch := false, err := none } :=
  ⟨rfl, rfl,
    C1_amended envHardThenOk gameTF2 { statusCode := 500, body := [7] }
      { statusCode := 200, body := [1, 2, 3] } rfl (by decide) (by decide) rfl
      (by decide) (by decide)⟩

/-- Claim C3: when source 1 (Akamai) answers 404 and source 2 (Steam CDN)
answers 2xx, the resolver returns source 2's response with the low-confidence
flag (`fromSearch`) false and no error, and the complete list of URLs fetched
is exactly the two CDN URLs in priority order — the search (source 3) is never
invoked. -/
theorem C3_fallback (env : Env) (game : Game) (r1 r2 : HttpResponse)
    (h1 : env.net (akamaiUrl game.id) = some r1) (h1s : r1.statusCode = 404)
    (h2 : env.net (steamCdnUrl game.id) = some r2)
    (h2lo : 200 ≤ r2.statusCode) (h2hi : r2.statusCode < 300) :
    getImageAlternatives env game =
      { response := some r2, fromSearch := false, err := none } ∧
    getImageAlternativesFetches env game =
      [akamaiUrl game.id, steamCdnUrl game.id] := by
  have h2ne : ¬ r2.statusCode = 404 := by omega
  have h2le : ¬ 400 < r2.statusCode := by omega
  constructor
  · simp [getImageAlternatives, tryDownload, h1, h1s, h2, h2ne, h2le]
  · simp [getImageAlternativesFetches, tryDownload, h1, h1s, h2, h2ne, h2le]

/-- Claim C3, witness: Akamai answers 404, the Steam CDN 200 with body [5]. -/
theorem C3_fallback_witness :
    envFallbackOk.net (akamaiUrl "440") = some { statusCode := 404, body := [] } ∧
    envFallbackOk.net (steamCdnUrl "440") = some { statusCode := 200, body := [5] } ∧
    (getImageAlternatives envFallbackOk gameTF2 =
      { response := some { statusCode := 200, body := [5] },
        fromSearch := false, err := none } ∧
     getImageAlternativesFetches envFallbackOk gameTF2 =
      [akamaiUrl "440", steamCdnUrl "440"]) :=
  ⟨rfl, rfl,
    C3_fallback envFallbackOk gameTF2 { statusCode := 404, body := [] }
      { statusCode := 200, body := [5] } rfl rfl rfl (by decide) (by decide)⟩

/-- Claim C10: when both CDN sources report plain not-found (nil response, nil
error) and the Google search itself succeeds in naming a candidate URL, but
downloading that URL fails (`tryDownload` returns a non-nil error: connect
failure or a hard HTTP status), `getImageAlternatives` silently discards the
failure and returns `(nil, false, nil)` — the game is reported not-found with
no error. -/
theorem C10_searchFailureDiscarded (env : Env) (game : Game) (u : String)
    (h1 : tryDownload env.net (akamaiUrl game.id) = (none, none))
    (h2 : tryDownload env.net (steamCdnUrl game.id) = (none, none))
    (hg : getGoogleImage env game.name = (u, none))
    (hu : (tryDownload env.net u).2 ≠ none) :
    getImageAlternatives env game =
      { response := none, fromSearch := false, err := none } := by
  rcases hru : tryDownload env.net u with ⟨resp, err⟩
  simp only [getImageAlternatives, h1, h2, hg, hru] at hu ⊢
  cases err with
  | none => exact absurd rfl hu
  | some e => simp

/-- Claim C10, witness: both CDNs 404, the search names a candidate URL whose
download hits a connect error; the resolver reports plain not-found. -/
theorem C10_witness :
    tryDownload envSearchFail.net (akamaiUrl "440") = (none, none) ∧
    tryDownload envSearchFail.net (steamCdnUrl "440") = (none, none) ∧
    getGoogleImage envSearchFail "Team Fortress 2" = ("http://img.example/a.jpg", none) ∧
    (tryDownload envSearchFail.net "http://img.example/a.jpg").2 ≠ none ∧
    getImageAlternatives envSearchFail gameTF2 =
      { response := none, fromSearch := false, err := none } :=
  ⟨by decide, by decide, by decide, by decide,
    C10_searchFailureDiscarded envSearchFail gameTF2 "http://img.example/a.jpg"
      (by decide) (by decide) (by decide) (by decide)⟩

/-- Claim C4, counterexample: the code's normalization strips ALL trailing "s"
characters (`strings.TrimRight`), not exactly one: "Boss" normalizes to "bo",
while lower-casing plus stripping a single trailing "s" would give "bos". -/
theorem C4_counterexample :
    normalizeName "Boss" = "bo" ∧ normalizeOneSpec "Boss" = "bos" ∧
    normalizeName "Boss" ≠ normalizeOneSpec "Boss" := by
  refine ⟨by decide, by decide, by decide⟩

/-- Any list of characters decomposes as its strip-all-trailing-s part
followed by a run of 's'. -/
theorem stripAllS_decomp (l : List Char) :
    l = (l.reverse.dropWhile (fun c => c == 's')).reverse ++
      List.replicate (l.reverse.takeWhile (fun c => c == 's')).length 's' := by
  have hrep : l.reverse.takeWhile (fun c => c == 's') =
      List.replicate (l.reverse.takeWhile (fun c => c == 's')).length 's' := by
    rw [List.eq_replicate_iff]
    refine ⟨rfl, fun b hb => ?_⟩
    have h2 := List.mem_takeWhile_imp hb
    simpa using h2
  conv_lhs => rw [← List.reverse_reverse l,
    ← List.takeWhile_append_dropWhile (fun c => c == 's') l.reverse,
    List.reverse_append, hrep, List.reverse_replicate]

/-- Claim C4 amended: the normalization applied to tags and overlay filename
stems is lower-casing plus stripping ALL trailing "s" characters (the
lower-cased name decomposes as the normalized name followed by some run of
's'), and a tag matches a loaded overlay file iff their normalizations are
equal. -/
theorem C4_amended {Img : Type} (ops : ImgOps Img) (tag fileName : String)
    (bts : Bytes) (img : Img) (hdec : ops.decode bts = some img) :
    ((mapLookup (LoadOverlays ops (some [(fileName, bts)])).1
        (normalizeName tag)).isSome ↔
      normalizeName tag = overlayName fileName) ∧
    (∃ n, (strToLower tag).data = (normalizeName tag).data ++ List.replicate n 's') := by
  constructor
  · simp only [LoadOverlays, loadOverlayFiles, hdec, mapInsert, mapLookup,
      List.find?]
    by_cases h : overlayName fileName = normalizeName tag
    · have hb : (overlayName fileName == normalizeName tag) = true :=
        beq_iff_eq.mpr h
      simp [hb, h.symm]
    · have hb : (overlayName fileName == normalizeName tag) = false :=
        beq_eq_false_iff_ne.mpr h
      simp only [hb]
      simp only [Option.map_none', Option.isSome_none, Bool.false_eq_true, false_iff]
      exact Ne.symm h
  · exact ⟨((strToLower tag).data.reverse.takeWhile (fun c => c == 's')).length,
      stripAllS_decomp (strToLower tag).data⟩

/-- Claim C4 amended, witness: the tag "Demos" matches the overlay file
"demo.png" (both normalize to "demo"). -/
theorem C4_amended_witness :
    natOps.decode [3] = some 3 ∧
    ((mapLookup (LoadOverlays natOps (some [("demo.png", [3])])).1
        (normalizeName "Demos")).isSome ↔
      normalizeName "Demos" = overlayName "demo.png") ∧
    (∃ n, (strToLower "Demos").data =
      (normalizeName "Demos").data ++ List.replicate n 's') :=
  ⟨rfl, (C4_amended natOps "Demos" "demo.png" [3] 3 rfl).1,
    (C4_amended natOps "Demos" "demo.png" [3] 3 rfl).2⟩

/-- Claim C5: with a backup file present, `DownloadImage` loads the backup's
bytes, returns found=true and fromSearch=false, leaves the filesystem
untouched, and its full event trace is a stat and a read (no network fetch);
with only a working file present, it loads the working file's bytes, writes a
byte-identical backup, returns found=true and fromSearch=false, and again its
trace contains no fetch. -/
theorem C5_cacheAuthoritative (env : Env) (user : User) (fs : FS)
    (game : Game) (b : Bytes) :
    (fs.read (backupPath user game) = some b →
      DownloadImage env game user fs =
        ((true, false, none),
         { game with imagePath := workingPath user game, imageBytes := some b },
         fs) ∧
      (DownloadImageT env game user fs).2 =
        [Ev.statFile (backupPath user game),
         Ev.readFile (backupPath user game)]) ∧
    (fs.read (backupPath user game) = none →
      fs.read (workingPath user game) = some b →
      DownloadImage env game user fs =
        ((true, false, none),
         { game with imagePath := workingPath user game, imageBytes := some b },
         fs.write (backupPath user game) b) ∧
      (DownloadImageT env game user fs).2 =
        [Ev.statFile (backupPath user game), Ev.statFile (workingPath user game),
         Ev.readFile (workingPath user game),
         Ev.writeFile (backupPath user game)]) := by
  constructor
  · intro hb
    constructor
    · simp [DownloadImage, DownloadImageT, hb]
    · simp [DownloadImageT, hb]
  · intro hb hw
    constructor
    · simp [DownloadImage, DownloadImageT, hb, hw]
    · simp [DownloadImageT, hb, hw]

/-- Claim C5, witness: instantiated once with a backup holding bytes [1] and
once with only a working file holding bytes [2]. -/
theorem C5_witness :
    (FS.read fsWithBackup (backupPath userU gameTF2) = some [1] ∧
      DownloadImage envNone gameTF2 userU fsWithBackup =
        ((true, false, none),
         { gameTF2 with imagePath := workingPath userU gameTF2,
                        imageBytes := some [1] },
         fsWithBackup)) ∧
    (FS.read fsWithWorking (backupPath userU gameTF2) = none ∧
      FS.read fsWithWorking (workingPath userU gameTF2) = some [2] ∧
      DownloadImage envNone gameTF2 userU fsWithWorking =
        ((true, false, none),
         { gameTF2 with imagePath := workingPath userU gameTF2,
                        imageBytes := some [2] },
         FS.write fsWithWorking (backupPath userU gameTF2) [2])) := by
  refine ⟨⟨by decide, ?_⟩, ⟨by decide, by decide, ?_⟩⟩
  · exact ((C5_cacheAuthoritative envNone userU fsWithBackup gameTF2 [1]).1
      (by decide)).1
  · exact ((C5_cacheAuthoritative envNone userU fsWithWorking gameTF2 [2]).2
      (by decide) (by decide)).1

/-- Compositing writes only the game's image path: any other path is
unchanged by `ApplyOverlay`. -/
theorem ApplyOverlay_read_other {Img : Type} (ops : ImgOps Img)
    (overlays : List (String × Img)) (g : Game) (fs : FS) (p : String)
    (hp : p ≠ g.imagePath) :
    (ApplyOverlay ops g overlays fs).2.2.read p = fs.read p := by
  unfold ApplyOverlay ApplyOverlayT
  cases hby : g.imageBytes with
  | none => rfl
  | some bytes =>
    by_cases hip : g.imagePath = ""
    · simp [hip]
    · rcases hat : applyTags ops overlays g.tags bytes with ⟨⟨e, nb⟩, evs⟩
      cases e with
      | some er => simp [hip, hat]
      | none => simp [hip, hat, FS.read_write, hp]

/-- Claim C6: once a backup exists, a full per-game pipeline step (cache
resolution followed by overlay compositing) leaves its bytes unchanged —
`DownloadImage` returns without writing when the backup is present, and
`ApplyOverlay` writes only the game's working path, never any other path. -/
theorem C6_backupImmutable {Img : Type} (ops : ImgOps Img)
    (overlays : List (String × Img)) (env : Env) (user : User) (fs : FS)
    (game : Game) (b : Bytes)
    (hb : fs.read (backupPath user game) = some b) :
    (processGame ops overlays env user fs game).2.2.read
        (backupPath user game) = some b ∧
    (∀ (g : Game) (fs' : FS) (p : String), p ≠ g.imagePath →
      (ApplyOverlay ops g overlays fs').2.2.read p = fs'.read p) := by
  refine ⟨?_, fun g fs' p hp => ApplyOverlay_read_other ops overlays g fs' p hp⟩
  unfold processGame processGameT
  simp only [DownloadImageT, hb]
  have hro := ApplyOverlay_read_other ops overlays
    { game with imagePath := workingPath user game, imageBytes := some b } fs
    (backupPath user game) (backupPath_ne_workingPath user game)
  rcases hA : ApplyOverlayT ops
      { game with imagePath := workingPath user game, imageBytes := some b }
      overlays fs with ⟨⟨oe, g2, fs2⟩, oevs⟩
  rw [ApplyOverlay, hA] at hro
  cases oe <;> simp [hA, hro, hb]

/-- Claim C6, witness: a backup holding bytes [1] survives a pipeline step. -/
theorem C6_witness :
    FS.read fsWithBackup (backupPath userU gameTF2) = some [1] ∧
    (processGame natOps [] envNone userU fsWithBackup gameTF2).2.2.read
        (backupPath userU gameTF2) = some [1] :=
  ⟨by decide,
    (C6_backupImmutable natOps [] envNone userU fsWithBackup gameTF2 [1]
      (by decide)).1⟩

/-- Claim C7, counterexample: on a fresh cache with a successful fetch, the
writes happen in the order working-then-backup (then the overlay rewrite of
the working file) — the backup write does NOT precede the working write. -/
theorem C7_counterexample :
    writeEvents (processGameT natOps [] envFallbackOk userU [] gameTF2).2 =
      [workingPath userU gameTF2, backupPath userU gameTF2,
       workingPath userU gameTF2] ∧
    workingPath userU gameTF2 ≠ backupPath userU gameTF2 := by
  constructor
  · rfl
  · decide

/-- Claim C7 amended: for a fresh download, the per-game step order is
cache-check (both stats), then the fetches, then write-WORKING, then
write-BACKUP, and only then the overlay events (draws and the overlay's final
rewrite of the working path). -/
theorem C7_amended {Img : Type} (ops : ImgOps Img)
    (overlays : List (String × Img)) (env : Env) (user : User) (fs : FS)
    (game : Game) (r : HttpResponse) (fsrch : Bool)
    (hb : fs.read (backupPath user game) = none)
    (hw : fs.read (workingPath user game) = none)
    (hres : getImageAlternatives env game =
      { response := some r, fromSearch := fsrch, err := none }) :
    ∃ overlayEvs,
      (processGameT ops overlays env user fs game).2 =
        [Ev.statFile (backupPath user game),
         Ev.statFile (workingPath user game)] ++
          (getImageAlternativesFetches env game).map Ev.fetch ++
          [Ev.writeFile (workingPath user game),
           Ev.writeFile (backupPath user game)] ++
          overlayEvs ∧
      ∀ e ∈ overlayEvs, (∃ t, e = Ev.overlayDraw t) ∨
        e = Ev.writeFile (workingPath user game) := by
  unfold processGameT
  simp only [DownloadImageT, hb, hw, getImageAlternatives_set_imagePath,
    getImageAlternativesFetches_set_imagePath, hres]
  rcases hat : applyTags ops overlays game.tags r.body with ⟨⟨e, nb⟩, aevs⟩
  have hdraw := applyTags_events_draw ops overlays game.tags r.body
  rw [hat] at hdraw
  have hne : ¬ workingPath user game = "" := workingPath_ne_empty user game
  cases e with
  | some er =>
    refine ⟨aevs, ?_, fun e he => Or.inl (hdraw e he)⟩
    simp [ApplyOverlayT, hat, hne, List.append_assoc]
  | none =>
    refine ⟨aevs ++ [Ev.writeFile (workingPath user game)], ?_, fun e he => ?_⟩
    · simp [ApplyOverlayT, hat, hne, List.append_assoc]
    · rcases List.mem_append.mp he with h1 | h1
      · exact Or.inl (hdraw e h1)
      · exact Or.inr (List.mem_singleton.mp h1)

/-- Claim C7 amended, witness: fresh cache, Akamai 404, Steam CDN 200. -/
theorem C7_amended_witness :
    FS.read ([] : FS) (backupPath userU gameTF2) = none ∧
    FS.read ([] : FS) (workingPath userU gameTF2) = none ∧
    getImageAlternatives envFallbackOk gameTF2 =
      { response := some { statusCode := 200, body := [5] },
        fromSearch := false, err := none } ∧
    ∃ overlayEvs,
      (processGameT natOps [] envFallbackOk userU [] gameTF2).2 =
        [Ev.statFile (backupPath userU gameTF2),
         Ev.statFile (workingPath userU gameTF2)] ++
          (getImageAlternativesFetches envFallbackOk gameTF2).map Ev.fetch ++
          [Ev.writeFile (workingPath userU gameTF2),
           Ev.writeFile (backupPath userU gameTF2)] ++
          overlayEvs ∧
      ∀ e ∈ overlayEvs, (∃ t, e = Ev.overlayDraw t) ∨
        e = Ev.writeFile (workingPath userU gameTF2) :=
  ⟨rfl, rfl, by decide,
    C7_amended natOps [] envFallbackOk userU [] gameTF2
      { statusCode := 200, body := [5] } false rfl rfl (by decide)⟩

/-- Claim C8: with tags ["Action", "Favorite"] and overlays {action ↦ A,
favorite ↦ F}, compositing is cumulative in tag order — the final bytes encode
F composited over (A composited over the base image) — and repeated tags are
not deduplicated: tags ["Favorite", "Favorite"] apply F twice. Assumes the
encode/decode round-trip of the image codec. -/
theorem C8_composeOrder {Img : Type} (ops : ImgOps Img) (A F baseImg : Img)
    (baseBytes : Bytes) (p gid gname : String) (fs : FS)
    (hp : p ≠ "")
    (hdec : ops.decode baseBytes = some baseImg)
    (hrt : ∀ i, ops.decode (ops.encode i) = some i) :
    ApplyOverlay ops
        { id := gid, name := gname, tags := ["Action", "Favorite"],
          imagePath := p, imageBytes := some baseBytes }
        [("action", A), ("favorite", F)] fs =
      (none,
       { id := gid, name := gname, tags := ["Action", "Favorite"],
         imagePath := p,
         imageBytes := some (ops.encode (ops.compose (ops.compose baseImg A) F)) },
       fs.write p (ops.encode (ops.compose (ops.compose baseImg A) F))) ∧
    ApplyOverlay ops
        { id := gid, name := gname, tags := ["Favorite", "Favorite"],
          imagePath := p, imageBytes := some baseBytes }
        [("action", A), ("favorite", F)] fs =
      (none,
       { id := gid, name := gname, tags := ["Favorite", "Favorite"],
         imagePath := p,
         imageBytes := some (ops.encode (ops.compose (ops.compose baseImg F) F)) },
       fs.write p (ops.encode (ops.compose (ops.compose baseImg F) F))) := by
  have hA : mapLookup [("action", A), ("favorite", F)] (normalizeName "Action") =
      some A := rfl
  have hF : mapLookup [("action", A), ("favorite", F)] (normalizeName "Favorite") =
      some F := rfl
  constructor <;>
    simp [ApplyOverlay, ApplyOverlayT, applyTags, hA, hF, hdec, hrt, hp]

/-- Claim C8, witness: over `natOps` (decode = head, encode = singleton,
compose x y = 10x + y), base 1 with overlays A = 2, F = 3 yields
encode(compose(compose(1, 2), 3)) = [123], and the repeated-tag run [133]. -/
theorem C8_witness :
    ("p" : String) ≠ "" ∧
    natOps.decode [1] = some 1 ∧
    ApplyOverlay natOps
        { id := "440", name := "g", tags := ["Action", "Favorite"],
          imagePath := "p", imageBytes := some [1] }
        [("action", 2), ("favorite", 3)] [] =
      (none,
       { id := "440", name := "g", tags := ["Action", "Favorite"],
         imagePath := "p", imageBytes := some [123] },
       FS.write [] "p" [123]) ∧
    ApplyOverlay natOps
        { id := "440", name := "g", tags := ["Favorite", "Favorite"],
          imagePath := "p", imageBytes := some [1] }
        [("action", 2), ("favorite", 3)] [] =
      (none,
       { id := "440", name := "g", tags := ["Favorite", "Favorite"],
         imagePath := "p", imageBytes := some [133] },
       FS.write [] "p" [133]) := by
  refine ⟨by decide, rfl, ?_, ?_⟩
  · exact (C8_composeOrder natOps 2 3 1 [1] "p" "440" "g" [] (by decide) rfl
      (fun i => rfl)).1
  · exact (C8_composeOrder natOps 2 3 1 [1] "p" "440" "g" [] (by decide) rfl
      (fun i => rfl)).2

/-- An infix of `s` is an infix of `s ++ t`. -/
theorem infix_data_append_left (x : List Char) (s t : String)
    (h : x <:+: s.data) : x <:+: (s ++ t).data := by
  rw [String.data_append]
  exact h.trans (List.prefix_append _ _).isInfix

/-- An infix of `t` is an infix of `s ++ t`. -/
theorem infix_data_append_right (x : List Char) (s t : String)
    (h : x <:+: t.data) : x <:+: (s ++ t).data := by
  rw [String.data_append]
  exact h.trans (List.suffix_append _ _).isInfix

/-- An infix of the loop's seed survives the report loop. -/
theorem infix_of_infix_init (x : List Char) (init : String) (l : List Game)
    (h : x <:+: init.data) : x <:+: (appendLines init l).data := by
  rw [appendLines_data]
  exact h.trans (List.prefix_append _ _).isInfix

set_option maxRecDepth 4000 in
/-- Claim C9, counterexample: the final report names games by the raw
`game.Name` even when it is empty — the not-found entry for an unnamed game
with id 440 is "*  (steam id 440)", and the synthesized "unknown game with id"
string appears nowhere in the report. -/
theorem C9_counterexample :
    buildMessage [] [gameNoName] =
      "1 images could not be found anywhere:\n*  (steam id 440)\n\n\nOpen Steam in grid view to see the results!" ∧
    ¬ ("unknown game with id".data <:+: (buildMessage [] [gameNoName]).data) := by
  constructor
  · rfl
  · decide

/-- Claim C9 amended: every itemized entry of the final report is the line
"* {name} (steam id {id})" built from the RAW display name — even when the
name is empty — and each listed game's line occurs verbatim in the report;
the synthesized "unknown game with id {id}" naming is used only in the
per-game progress description. -/
theorem C9_amended (searchFounds notFounds : List Game) (g : Game) :
    (g ∈ notFounds →
      (reportLine g).data <:+: (buildMessage searchFounds notFounds).data) ∧
    (g ∈ searchFounds →
      (reportLine g).data <:+: (buildMessage searchFounds notFounds).data) ∧
    reportLine g = "* " ++ g.name ++ " (steam id " ++ g.id ++ ")\n" ∧
    (g.name = "" → ∀ i total : Nat, progressDescription g i total =
      "Processing unknown game with id " ++ g.id ++ " (" ++ toString i ++ "/" ++
        toString total ++ ")") := by
  refine ⟨fun hg => ?_, fun hg => ?_, rfl, fun hname i total => ?_⟩
  · have hnf : ¬ notFounds.length = 0 := by
      intro h0
      rw [List.length_eq_zero] at h0
      subst h0
      cases hg
    have hand : ¬ (notFounds.length = 0 ∧ searchFounds.length = 0) :=
      fun h => hnf h.1
    have hge : 1 ≤ notFounds.length := Nat.one_le_iff_ne_zero.mpr hnf
    simp only [buildMessage, if_neg hand, if_pos hge]
    exact infix_data_append_left _ _ _ (infix_data_append_left _ _ _
      (reportLine_infix_appendLines g notFounds _ hg))
  · have hsf : ¬ searchFounds.length = 0 := by
      intro h0
      rw [List.length_eq_zero] at h0
      subst h0
      cases hg
    have hand : ¬ (notFounds.length = 0 ∧ searchFounds.length = 0) :=
      fun h => hsf h.2
    have hge : 1 ≤ searchFounds.length := Nat.one_le_iff_ne_zero.mpr hsf
    simp only [buildMessage, if_neg hand, if_pos hge]
    by_cases hnf : 1 ≤ notFounds.length
    · simp only [if_pos hnf]
      exact infix_data_append_left _ _ _ (infix_data_append_left _ _ _
        (infix_of_infix_init _ _ _ (infix_data_append_left _ _ _
          (infix_data_append_left _ _ _ (infix_data_append_left _ _ _
            (reportLine_infix_appendLines g searchFounds _ hg))))))
    · simp only [if_neg hnf]
      exact infix_data_append_left _ _ _ (infix_data_append_left _ _ _
        (reportLine_infix_appendLines g searchFounds _ hg))
  · have hlit : ("Processing " : String) ++ "unknown game with id " =
        "Processing unknown game with id " := rfl
    simp only [progressDescription, displayName, hname, ne_eq,
      not_true_eq_false, if_false, ← String.append_assoc, hlit]

/-- Claim C9 amended, witness: the unnamed game with id 440 in the not-found
list; its raw-name line occurs in the report, and the progress description
uses the synthesized name. -/
theorem C9_amended_witness :
    gameNoName ∈ [gameNoName] ∧
    (reportLine gameNoName).data <:+: (buildMessage [] [gameNoName]).data ∧
    gameNoName.name = "" ∧
    progressDescription gameNoName 1 2 =
      "Processing unknown game with id " ++ "440" ++ " (" ++ toString 1 ++
        "/" ++ toString 2 ++ ")" :=
  ⟨List.mem_singleton.mpr rfl,
   (C9_amended [] [gameNoName] gameNoName).1 (List.mem_singleton.mpr rfl),
   rfl,
   (C9_amended [] [gameNoName] gameNoName).2.2.2 rfl 1 2⟩
